import Mathlib

/-!
Verification development for the soundcloud-artists-scraper repository.

The Python sources are shallowly embedded as Lean functions:

* `src/main.py`: `_normalize_input_config` (input-config validation) and
  `_deduplicate_artists` (identity-key deduplication);
* `src/extractors/utils.py`: `http_get` (retry loop with exponential backoff);
* `src/extractors/soundcloud_parser.py`: `search_artists` (keyword search
  with the hydration and profile-link collection loops) and
  `_extract_hydration_blocks`.

Python dictionaries coming from `json.load` are modelled by the `JVal` type,
Python truthiness by `truthy`, and Python's `int(...)` conversion by `pyInt`.
-/

/-- A JSON value as produced by Python's `json.load`: `None`, booleans,
integers, floats (modelled as rationals), strings, arrays and objects. -/
inductive JVal where
  | jnull
  | jbool (b : Bool)
  | jint (n : Int)
  | jfloat (q : ℚ)
  | jstr (s : String)
  | jlist (l : List JVal)
  | jdict (d : List (String × JVal))

/-- Python truthiness of a JSON value: `None`, `False`, `0`, `0.0`, `""`,
`[]` and `{ }` are falsy, everything else is truthy. -/
def truthy : JVal → Bool
  | JVal.jnull => false
  | JVal.jbool b => b
  | JVal.jint n => decide (n ≠ 0)
  | JVal.jfloat q => decide (q ≠ 0)
  | JVal.jstr s => decide (s ≠ "")
  | JVal.jlist l => !l.isEmpty
  | JVal.jdict d => !d.isEmpty

/-- `isinstance(v, list)` on a JSON value. -/
def isList : JVal → Bool
  | JVal.jlist _ => true
  | _ => false

/-- `d.get(k)`: first binding of key `k` in a JSON object, if any. -/
def dictGet (d : List (String × JVal)) (k : String) : Option JVal :=
  (d.find? (fun p => p.1 == k)).map (fun p => p.2)

/-- Python's `x or dflt` applied to an optional lookup result, as in
`raw.get("profiles") or []`: a missing or falsy value is replaced by the
default. -/
def pyOr (v : Option JVal) (dflt : JVal) : JVal :=
  match v with
  | none => dflt
  | some x => if truthy x then x else dflt

/-- Python's `s.strip()`: drop leading and trailing whitespace (ASCII
whitespace; the exotic Unicode whitespace Python also strips plays no role
in any claim). -/
def pyStrip (s : String) : String :=
  String.mk (((s.data.dropWhile Char.isWhitespace).reverse.dropWhile
    Char.isWhitespace).reverse)

/-- The list comprehension `[p for p in l if isinstance(p, str) and p.strip()]`
from `_normalize_input_config`: keep the (unstripped) strings whose stripped
form is non-empty. -/
def filterStrings (l : List JVal) : List String :=
  l.filterMap (fun v =>
    match v with
    | JVal.jstr s => if pyStrip s = "" then none else some s
    | _ => none)

/-- Value of a base-10 digit string (most significant first). -/
def digitsVal (cs : List Char) : Nat :=
  cs.foldl (fun acc c => acc * 10 + (c.toNat - 48)) 0

/-- Python's `int(s)` on a string: strip whitespace, optional sign, then a
non-empty run of ASCII decimal digits; anything else raises (`none`). -/
def pyParseInt (s : String) : Option Int :=
  match (pyStrip s).toList with
  | [] => none
  | c :: rest =>
    let signed : Int × List Char :=
      if c = '-' then (-1, rest) else if c = '+' then (1, rest) else (1, c :: rest)
    if signed.2.isEmpty then none
    else if signed.2.all Char.isDigit then some (signed.1 * (digitsVal signed.2 : Int))
    else none

/-- Truncation of a rational toward zero, as Python's `int(float)` does. -/
def ratTrunc (q : ℚ) : Int :=
  Int.tdiv q.num (q.den : Int)

/-- Python's `int(x)` on a JSON value: booleans and floats convert
(`int(True) = 1`, floats truncate toward zero), numeric strings parse,
`None` / lists / objects raise `TypeError` and non-numeric strings raise
`ValueError` (both modelled as `none`). -/
def pyInt : JVal → Option Int
  | JVal.jnull => none
  | JVal.jbool b => some (if b then 1 else 0)
  | JVal.jint n => some n
  | JVal.jfloat q => some (ratTrunc q)
  | JVal.jstr s => pyParseInt s
  | JVal.jlist _ => none
  | JVal.jdict _ => none

/-- The normalized input configuration built by `_normalize_input_config`. -/
structure InputConfig where
  profiles : List String
  keywords : List String
  maxItemsPerKeyword : Int
deriving DecidableEq

/-- `_normalize_input_config` from `src/main.py` (lines 64-95): coerce a
missing or falsy `profiles` / `keywords` to `[]` (`raw.get(k) or []`), reject
non-list values, keep only non-blank string entries, convert
`maxItemsPerKeyword` (default `20`) with `int(...)` and reject conversion
failures and non-positive results. -/
def normalizeInputConfig (raw : List (String × JVal)) : Except String InputConfig :=
  match pyOr (dictGet raw "profiles") (JVal.jlist []) with
  | JVal.jlist ps =>
    match pyOr (dictGet raw "keywords") (JVal.jlist []) with
    | JVal.jlist ks =>
      match pyInt ((dictGet raw "maxItemsPerKeyword").getD (JVal.jint 20)) with
      | none => Except.error "`maxItemsPerKeyword` must be an integer."
      | some m =>
        if m ≤ 0 then Except.error "`maxItemsPerKeyword` must be > 0."
        else Except.ok ⟨filterStrings ps, filterStrings ks, m⟩
    | _ => Except.error "`keywords` must be a list of search keywords."
  | _ => Except.error "`profiles` must be a list of SoundCloud profile URLs."

/-- A network request issued by `main` after configuration loading: one
profile fetch per entry of `profiles` and one search per keyword. -/
inductive NetRequest where
  | fetchProfile (url : String)
  | search (keyword : String)
deriving DecidableEq

/-- The network requests `main` issues for a normalized configuration
(`src/main.py` lines 169-199): all profile fetches, then one search per
keyword. -/
def mainRequests (cfg : InputConfig) : List NetRequest :=
  cfg.profiles.map NetRequest.fetchProfile ++ cfg.keywords.map NetRequest.search

/-- The configuration-loading phase of `main` (`src/main.py` lines 144-199):
the input is normalized first; on failure the run aborts (`SystemExit 1`)
before the scraper is even constructed, so no network request appears; on
success the scraping phase issues `mainRequests`. -/
def mainLoadPhase (raw : List (String × JVal)) :
    Except String (InputConfig × List NetRequest) :=
  match normalizeInputConfig raw with
  | Except.error e => Except.error e
  | Except.ok cfg => Except.ok (cfg, mainRequests cfg)

/-- A value that is truthy and not a list: exactly the values of `profiles` /
`keywords` on which `_normalize_input_config` raises the list-shape error. -/
def isTruthyNonList (v : JVal) : Bool :=
  truthy v && !(isList v)

/-- The malformed-input shapes that actually make `_normalize_input_config`
raise: a truthy non-list `profiles` or `keywords` value, a
`maxItemsPerKeyword` on which `int(...)` fails, or one converting to a
non-positive integer. -/
def malformedShape (raw : List (String × JVal)) : Bool :=
  isTruthyNonList (pyOr (dictGet raw "profiles") (JVal.jlist [])) ||
  isTruthyNonList (pyOr (dictGet raw "keywords") (JVal.jlist [])) ||
  (match pyInt ((dictGet raw "maxItemsPerKeyword").getD (JVal.jint 20)) with
   | none => true
   | some m => decide (m ≤ 0))

/-- An artist record as handled by `_deduplicate_artists`: `artist.get("id")`
(`α` is the identifier's type), `artist.get("permalink_url")`, and `extra`
standing for all remaining fields of the dictionary. -/
structure Artist (α : Type) where
  id : Option α
  permalink_url : Option String
  extra : Nat
deriving DecidableEq

/-- The dedup key built in `_deduplicate_artists`: the tagged tuple
`("id", artist_id)` or `("url", permalink_url)`. -/
inductive DedupKey (α : Type) where
  | byId (v : α)
  | byUrl (u : String)
deriving DecidableEq

/-- Key selection of `_deduplicate_artists` (`src/main.py` lines 106-113):
`("id", id)` when `id is not None`, else `("url", permalink_url)` when the
permalink is truthy (non-`None`, non-empty), else no key. -/
def keyOf {α : Type} (a : Artist α) : Option (DedupKey α) :=
  match a.id with
  | some v => some (DedupKey.byId v)
  | none =>
    match a.permalink_url with
    | some u => if u = "" then none else some (DedupKey.byUrl u)
    | none => none

/-- The loop of `_deduplicate_artists` (`src/main.py` lines 105-128), with
its two seen-key sets (`seen_ids`, `seen_urls`) and the accumulating result
list made explicit. -/
def dedupLoop {α : Type} [DecidableEq α] :
    List (Artist α) → List (DedupKey α) → List (DedupKey α) → List (Artist α) →
    List (Artist α)
  | [], _, _, result => result
  | a :: rest, seenIds, seenUrls, result =>
    match keyOf a with
    | none => dedupLoop rest seenIds seenUrls (result ++ [a])
    | some k =>
      if k ∈ seenIds ∨ k ∈ seenUrls then dedupLoop rest seenIds seenUrls result
      else
        match k with
        | DedupKey.byId v =>
          dedupLoop rest (seenIds ++ [DedupKey.byId v]) seenUrls (result ++ [a])
        | DedupKey.byUrl u =>
          dedupLoop rest seenIds (seenUrls ++ [DedupKey.byUrl u]) (result ++ [a])

/-- `_deduplicate_artists` from `src/main.py` (lines 97-130). -/
def deduplicate_artists {α : Type} [DecidableEq α] (artists : List (Artist α)) :
    List (Artist α) :=
  dedupLoop artists [] [] []

/-- Accumulator-free form of the dedup loop with a single seen-key list;
`dedupLoop_eq_aux` proves it equal to `dedupLoop`. -/
def dedupAux {α : Type} [DecidableEq α] :
    List (Artist α) → List (DedupKey α) → List (Artist α)
  | [], _ => []
  | a :: rest, seen =>
    match keyOf a with
    | none => a :: dedupAux rest seen
    | some k =>
      if k ∈ seen then dedupAux rest seen
      else a :: dedupAux rest (k :: seen)

/-- Keep the records whose key is absent from `seen` (keyless records always
pass). -/
def keyNotSeen {α : Type} [DecidableEq α] (seen : List (DedupKey α))
    (a : Artist α) : Bool :=
  match keyOf a with
  | none => true
  | some k => !(decide (k ∈ seen))

/-- Spec-side formulation of deduplication (spec section 4.5): keep every
keyless record, and for each identity key keep the first occurrence and drop
every later record carrying the same key, preserving order. Stated from the
spec's words, to be compared with `deduplicate_artists`. -/
def dedupSpec {α : Type} [DecidableEq α] : List (Artist α) → List (Artist α)
  | [] => []
  | a :: rest =>
    match keyOf a with
    | none => a :: dedupSpec rest
    | some k => a :: dedupSpec (rest.filter (fun b => decide (keyOf b ≠ some k)))
termination_by l => l.length
decreasing_by
  all_goals simp only [List.length_cons]
  all_goals first
    | exact Nat.lt_succ_of_le (List.length_filter_le _ _)
    | exact Nat.lt_succ_of_le (Nat.le_refl _)

/-- `Clean l seen`: scanning `l` left to right never meets a key already in
`seen` nor a key met earlier in `l`; on such lists the dedup loop is the
identity. -/
def Clean {α : Type} [DecidableEq α] : List (Artist α) → List (DedupKey α) → Prop
  | [], _ => True
  | a :: rest, seen =>
    match keyOf a with
    | none => Clean rest seen
    | some k => k ∉ seen ∧ Clean rest (k :: seen)

/-- Outcome of one `requests.get(...)` / `raise_for_status()` attempt inside
`http_get`: either a 2xx response (its body modelled as a `Nat` tag) or a
`RequestException` (transport failure or non-2xx status, modelled as a `Nat`
tag). -/
inductive AttemptOutcome where
  | success (resp : Nat)
  | failure (exc : Nat)
deriving DecidableEq

/-- How a call to `http_get` ends: a returned response, a raised
`RequestException`, or a failed `assert last_exc is not None`; each carries
the list of backoff sleep durations (in seconds) performed on the way. -/
inductive HttpResult where
  | ok (resp : Nat) (sleeps : List ℚ)
  | raised (exc : Nat) (sleeps : List ℚ)
  | assertFail (sleeps : List ℚ)
deriving DecidableEq

/-- The `while attempt < max_retries` loop of `http_get`
(`src/extractors/utils.py` lines 56-87). `fuel` is the number of loop
iterations still allowed (`max_retries - attempt`, so `fuel = 0` is the exit
condition), `attempt` the attempts already made, `lastExc` the `last_exc`
variable and `sleeps` the `time.sleep` calls so far. Each iteration runs
attempt `attempt + 1`; on success the response is returned; on failure the
loop breaks and re-raises when this was the final attempt
(`attempt >= max_retries`, i.e. the fuel after this iteration is `0`), and
otherwise sleeps `backoff_factor * 2 ** (attempt - 1)` seconds (with the
incremented, 1-based `attempt`) and retries. When the fuel is exhausted the
function asserts `last_exc is not None` and raises it. -/
def httpLoop (o : Nat → AttemptOutcome) (backoff_factor : ℚ) :
    Nat → Nat → Option Nat → List ℚ → HttpResult
  | 0, _, lastExc, sleeps =>
    match lastExc with
    | some e => HttpResult.raised e sleeps
    | none => HttpResult.assertFail sleeps
  | fuel + 1, attempt, _, sleeps =>
    match o (attempt + 1) with
    | AttemptOutcome.success r => HttpResult.ok r sleeps
    | AttemptOutcome.failure e =>
      match fuel with
      | 0 => HttpResult.raised e sleeps
      | _ + 1 =>
        httpLoop o backoff_factor fuel (attempt + 1) (some e)
          (sleeps ++ [backoff_factor * 2 ^ (attempt + 1 - 1)])

/-- `http_get` from `src/extractors/utils.py` (lines 39-87), abstracted over
the outcome `o k` of its `k`-th attempt (`k` counted from 1). `max_retries`
is an `Int` so the `max_retries <= 0` behaviour is representable. -/
def http_get (o : Nat → AttemptOutcome) (max_retries : Int)
    (backoff_factor : ℚ) : HttpResult :=
  httpLoop o backoff_factor max_retries.toNat 0 none []

/-- The backoff schedule of `http_get`: the `i`-th sleep (0-based, performed
just before attempt `i + 2`) lasts `backoff_factor * 2 ^ i` seconds. -/
def expectedSleeps (backoff_factor : ℚ) (n : Nat) : List ℚ :=
  (List.range n).map (fun i => backoff_factor * 2 ^ i)

/-- Python's slice `l[:n]`: for `n >= 0` the first `n` elements, for `n < 0`
all but the last `-n` elements. -/
def pySliceTo {α : Type} (l : List α) (n : Int) : List α :=
  l.take (if 0 ≤ n then n.toNat else ((l.length : Int) + n).toNat)

/-- The primary collection loop of `search_artists`
(`src/extractors/soundcloud_parser.py` lines 117-122): walk the hydration
user entries, stopping as soon as `max_items` records are accumulated, and
append each entry its normalizer turns into a record. `υ` is the type of raw
user entries, `ρ` the type of normalized artist records. -/
def collectHydration {υ ρ : Type} (normalizeArtist : υ → Option ρ)
    (maxItems : Int) : List υ → List ρ → List ρ
  | [], acc => acc
  | u :: rest, acc =>
    if (acc.length : Int) ≥ maxItems then acc
    else
      match normalizeArtist u with
      | some a => collectHydration normalizeArtist maxItems rest (acc ++ [a])
      | none => collectHydration normalizeArtist maxItems rest acc

/-- The fallback collection loop of `search_artists`
(`src/extractors/soundcloud_parser.py` lines 134-143): walk the profile
links scraped from the search page, stopping at `max_items` records; each
link is fetched individually (one logical network request, recorded in the
trace), a raised exception or a `None` record is logged and skipped. -/
def collectFallback {ε ρ : Type} (fetchProfile : String → Except ε (Option ρ))
    (maxItems : Int) : List String → List ρ → List String → List ρ × List String
  | [], acc, trace => (acc, trace)
  | url :: rest, acc, trace =>
    if (acc.length : Int) ≥ maxItems then (acc, trace)
    else
      match fetchProfile url with
      | Except.error _ => collectFallback fetchProfile maxItems rest acc (trace ++ [url])
      | Except.ok none => collectFallback fetchProfile maxItems rest acc (trace ++ [url])
      | Except.ok (some a) =>
        collectFallback fetchProfile maxItems rest (acc ++ [a]) (trace ++ [url])

/-- How a call to `search_artists` fails: the `ValueError` raised on a blank
keyword, or the `RequestException` propagated from `http_get` on the search
page itself. -/
inductive SearchErr (ε : Type) where
  | valueError
  | httpError (e : ε)
deriving DecidableEq

/-- `search_artists` from `src/extractors/soundcloud_parser.py`
(lines 88-145), abstracted over its collaborators: `httpGet` (the search-page
fetch, which may raise `ε`), `findUserList` (composition of
`_extract_hydration_blocks` and `_find_user_list`), `normalizeArtist`
(`_normalize_artist`), `extractProfileLinks`
(`_extract_profile_links_from_search_page`), `fetchProfile`
(`fetch_artist_profile`, whose exceptions the fallback loop catches) and
`quote` (`urllib.parse.quote`). Returns the result together with the trace
of network requests issued (the search-page URL, then one entry per fallback
profile fetch); a blank keyword raises `ValueError` before any request. -/
def search_artists {ε υ ρ : Type} (httpGet : String → Except ε String)
    (findUserList : String → List υ) (normalizeArtist : υ → Option ρ)
    (extractProfileLinks : String → List String)
    (fetchProfile : String → Except ε (Option ρ)) (quote : String → String)
    (base_url : String) (keyword : String) (maxItems : Int) :
    Except (SearchErr ε) (List ρ) × List String :=
  let q := pyStrip keyword
  if q = "" then (Except.error SearchErr.valueError, [])
  else
    let url := base_url ++ "/search/people?q=" ++ quote q
    match httpGet url with
    | Except.error e => (Except.error (SearchErr.httpError e), [url])
    | Except.ok html =>
      let artists := collectHydration normalizeArtist maxItems (findUserList html) []
      if (artists.length : Int) ≥ maxItems then
        (Except.ok (pySliceTo artists maxItems), [url])
      else
        let fb := collectFallback fetchProfile maxItems (extractProfileLinks html)
          artists [url]
        (Except.ok (pySliceTo fb.1 maxItems), fb.2)

/-- Modelled from the spec: `_extract_hydration_blocks` is cut off inside
`src/extractors/soundcloud_parser.py` (the file ends at line 166, in the
middle of building the loose fallback pattern), so the loose pattern, the
JSON parse of the matched text and its error handling are not in `src/`.
Following spec section 4.2: try the primary (single-line) pattern, then the
looser multi-line pattern; parse the matched text as JSON; malformed JSON is
treated the same as no match (empty result); no match by either pattern
yields the empty sequence. The function is total — returning a plain list,
it cannot raise. The two matchers and the JSON parser are abstracted as
arguments (`β` is the type of parsed hydration blocks). -/
def extractHydrationBlocks {β : Type}
    (primaryMatch looseMatch : String → Option String)
    (parseJsonArray : String → Option (List β)) (html : String) : List β :=
  match primaryMatch html with
  | some txt => (parseJsonArray txt).getD []
  | none =>
    match looseMatch html with
    | some txt => (parseJsonArray txt).getD []
    | none => []

/-! ## Deduplication lemmas -/

theorem dedupAux_congr {α : Type} [DecidableEq α] (l : List (Artist α)) :
    ∀ s1 s2 : List (DedupKey α), (∀ k, k ∈ s1 ↔ k ∈ s2) →
    dedupAux l s1 = dedupAux l s2 := by
  induction l with
  | nil => intro s1 s2 h; rfl
  | cons a rest ih =>
    intro s1 s2 h
    cases hk : keyOf a with
    | none => simp only [dedupAux, hk, ih s1 s2 h]
    | some k =>
      simp only [dedupAux, hk]
      by_cases hm : k ∈ s1
      · rw [if_pos hm, if_pos ((h k).mp hm), ih s1 s2 h]
      · rw [if_neg hm, if_neg (fun hc => hm ((h k).mpr hc))]
        have h2 : ∀ k2, k2 ∈ k :: s1 ↔ k2 ∈ k :: s2 := by
          intro k2; simp only [List.mem_cons, h k2]
        rw [ih (k :: s1) (k :: s2) h2]

theorem dedupLoop_eq_aux {α : Type} [DecidableEq α] (l : List (Artist α)) :
    ∀ (seenIds seenUrls : List (DedupKey α)) (acc : List (Artist α)),
    dedupLoop l seenIds seenUrls acc = acc ++ dedupAux l (seenIds ++ seenUrls) := by
  induction l with
  | nil => intro seenIds seenUrls acc; simp [dedupLoop, dedupAux]
  | cons a rest ih =>
    intro seenIds seenUrls acc
    cases hk : keyOf a with
    | none => simp only [dedupLoop, dedupAux, hk]; rw [ih]; simp
    | some k =>
      simp only [dedupLoop, dedupAux, hk]
      by_cases hm : k ∈ seenIds ++ seenUrls
      · rw [if_pos (List.mem_append.mp hm), if_pos hm, ih]
      · have hm2 : ¬(k ∈ seenIds ∨ k ∈ seenUrls) := fun hc => hm (List.mem_append.mpr hc)
        rw [if_neg hm2, if_neg hm]
        cases k with
        | byId v =>
          show dedupLoop rest (seenIds ++ [DedupKey.byId v]) seenUrls (acc ++ [a]) =
            acc ++ a :: dedupAux rest (DedupKey.byId v :: (seenIds ++ seenUrls))
          rw [ih]
          rw [dedupAux_congr rest ((seenIds ++ [DedupKey.byId v]) ++ seenUrls)
            (DedupKey.byId v :: (seenIds ++ seenUrls))
            (by intro k2; simp only [List.mem_append, List.mem_cons,
              List.mem_singleton]; tauto)]
          simp
        | byUrl u =>
          show dedupLoop rest seenIds (seenUrls ++ [DedupKey.byUrl u]) (acc ++ [a]) =
            acc ++ a :: dedupAux rest (DedupKey.byUrl u :: (seenIds ++ seenUrls))
          rw [ih]
          rw [dedupAux_congr rest (seenIds ++ (seenUrls ++ [DedupKey.byUrl u]))
            (DedupKey.byUrl u :: (seenIds ++ seenUrls))
            (by intro k2; simp only [List.mem_append, List.mem_cons,
              List.mem_singleton]; tauto)]
          simp

theorem deduplicate_artists_eq_dedupAux {α : Type} [DecidableEq α]
    (l : List (Artist α)) : deduplicate_artists l = dedupAux l [] := by
  simp [deduplicate_artists, dedupLoop_eq_aux]

theorem keyNotSeen_step {α : Type} [DecidableEq α] (seen : List (DedupKey α))
    (k : DedupKey α) (b : Artist α) :
    (decide (keyOf b ≠ some k) && keyNotSeen seen b) = keyNotSeen (k :: seen) b := by
  cases hkb : keyOf b with
  | none => simp [keyNotSeen, hkb]
  | some k2 =>
    simp only [keyNotSeen, hkb]
    by_cases h : k2 = k
    · subst h; simp
    · simp [h, List.mem_cons]

theorem dedupAux_eq_spec {α : Type} [DecidableEq α] (l : List (Artist α)) :
    ∀ seen : List (DedupKey α),
    dedupAux l seen = dedupSpec (l.filter (keyNotSeen seen)) := by
  induction l with
  | nil => intro seen; simp [dedupAux, dedupSpec]
  | cons a rest ih =>
    intro seen
    cases hk : keyOf a with
    | none =>
      have hpass : keyNotSeen seen a = true := by simp [keyNotSeen, hk]
      simp only [dedupAux, hk]
      rw [List.filter_cons_of_pos hpass]
      rw [dedupSpec]
      simp only [hk]
      rw [ih seen]
    | some k =>
      simp only [dedupAux, hk]
      by_cases hm : k ∈ seen
      · have hdrop : keyNotSeen seen a = false := by simp [keyNotSeen, hk, hm]
        rw [if_pos hm, List.filter_cons_of_neg (by simp [hdrop]), ih seen]
      · have hpass : keyNotSeen seen a = true := by simp [keyNotSeen, hk, hm]
        rw [if_neg hm, List.filter_cons_of_pos hpass]
        rw [dedupSpec]
        simp only [hk]
        rw [ih (k :: seen), List.filter_filter]
        rw [List.filter_congr (fun b _ => keyNotSeen_step seen k b)]


/-- Claim C5: `_deduplicate_artists` keeps exactly the first occurrence of
each identity key (`id` if present, else a truthy `permalink_url`), preserves
the relative order of retained records, and unconditionally retains every
keyless record (never merging them, even with identical copies): it computes
exactly the spec-side function `dedupSpec`. -/
theorem deduplicate_artists_first_occurrence {α : Type} [DecidableEq α]
    (l : List (Artist α)) : deduplicate_artists l = dedupSpec l := by
  rw [deduplicate_artists_eq_dedupAux, dedupAux_eq_spec]
  have h : l.filter (keyNotSeen []) = l := by
    apply List.filter_eq_self.mpr
    intro b _
    cases hkb : keyOf b <;> simp [keyNotSeen, hkb]
  rw [h]

theorem dedupAux_clean {α : Type} [DecidableEq α] (l : List (Artist α)) :
    ∀ seen : List (DedupKey α), Clean (dedupAux l seen) seen := by
  induction l with
  | nil => intro seen; simp [dedupAux, Clean]
  | cons a rest ih =>
    intro seen
    cases hk : keyOf a with
    | none => simp only [dedupAux, hk, Clean]; exact ih seen
    | some k =>
      simp only [dedupAux, hk]
      by_cases hm : k ∈ seen
      · rw [if_pos hm]; exact ih seen
      · rw [if_neg hm]; simp only [Clean, hk]; exact ⟨hm, ih (k :: seen)⟩

theorem dedupAux_of_clean {α : Type} [DecidableEq α] (l : List (Artist α)) :
    ∀ seen : List (DedupKey α), Clean l seen → dedupAux l seen = l := by
  induction l with
  | nil => intro seen _; rfl
  | cons a rest ih =>
    intro seen hc
    cases hk : keyOf a with
    | none =>
      simp only [Clean, hk] at hc
      simp only [dedupAux, hk]
      rw [ih seen hc]
    | some k =>
      simp only [Clean, hk] at hc
      simp only [dedupAux, hk]
      rw [if_neg hc.1, ih (k :: seen) hc.2]

/-- Claim C4: deduplication is idempotent — running `_deduplicate_artists`
on its own output returns that output unchanged, for every record list. -/
theorem deduplicate_artists_idempotent {α : Type} [DecidableEq α]
    (l : List (Artist α)) :
    deduplicate_artists (deduplicate_artists l) = deduplicate_artists l := by
  rw [deduplicate_artists_eq_dedupAux, deduplicate_artists_eq_dedupAux l]
  exact dedupAux_of_clean _ _ (dedupAux_clean l [])

/-! ## http_get lemmas -/

theorem httpLoop_success_step (o : Nat → AttemptOutcome) (b : ℚ)
    (fuel attempt : Nat) (last : Option Nat) (sleeps : List ℚ) (r : Nat)
    (h : o (attempt + 1) = AttemptOutcome.success r) :
    httpLoop o b (fuel + 1) attempt last sleeps = HttpResult.ok r sleeps := by
  conv_lhs => rw [httpLoop]
  rw [h]

theorem httpLoop_final_failure (o : Nat → AttemptOutcome) (b : ℚ)
    (attempt : Nat) (last : Option Nat) (sleeps : List ℚ) (e2 : Nat)
    (h : o (attempt + 1) = AttemptOutcome.failure e2) :
    httpLoop o b 1 attempt last sleeps = HttpResult.raised e2 sleeps := by
  conv_lhs => rw [httpLoop]
  rw [h]

theorem httpLoop_failure_step (o : Nat → AttemptOutcome) (b : ℚ)
    (g attempt : Nat) (last : Option Nat) (sleeps : List ℚ) (e2 : Nat)
    (h : o (attempt + 1) = AttemptOutcome.failure e2) :
    httpLoop o b (g + 1 + 1) attempt last sleeps =
      httpLoop o b (g + 1) (attempt + 1) (some e2)
        (sleeps ++ [b * 2 ^ (attempt + 1 - 1)]) := by
  conv_lhs => rw [httpLoop]
  rw [h]

theorem httpLoop_allFail (o : Nat → AttemptOutcome) (b : ℚ) (e : Nat → Nat) :
    ∀ (f attempt : Nat),
    (∀ k, attempt < k → k ≤ attempt + f + 1 → o k = AttemptOutcome.failure (e k)) →
    ∀ (last : Option Nat) (sleeps : List ℚ),
    httpLoop o b (f + 1) attempt last sleeps =
      HttpResult.raised (e (attempt + f + 1))
        (sleeps ++ (List.range f).map (fun i => b * 2 ^ (attempt + i))) := by
  intro f
  induction f with
  | zero =>
    intro attempt h last sleeps
    have hfail := h (attempt + 1) (Nat.lt_succ_self _) (by omega)
    simp [httpLoop, hfail]
  | succ g ih =>
    intro attempt h last sleeps
    have hfail := h (attempt + 1) (Nat.lt_succ_self _) (by omega)
    rw [httpLoop_failure_step o b g attempt last sleeps _ hfail]
    rw [ih (attempt + 1) (fun k hk1 hk2 => h k (by omega) (by omega))]
    rw [show attempt + 1 + g + 1 = attempt + (g + 1) + 1 from by omega]
    have hmap : (List.range g).map (fun i => b * 2 ^ (attempt + 1 + i)) =
        (List.range g).map (fun i => b * 2 ^ (attempt + (i + 1))) :=
      List.map_congr_left (fun i _ => by
        rw [show attempt + 1 + i = attempt + (i + 1) from by omega])
    rw [show attempt + 1 - 1 = attempt from by omega, hmap]
    conv_rhs => rw [List.range_succ_eq_map]
    simp [List.map_map, Function.comp, Nat.succ_eq_add_one]

theorem httpLoop_some_ne_assertFail (o : Nat → AttemptOutcome) (b : ℚ) :
    ∀ (fuel attempt : Nat) (e : Nat) (sleeps s : List ℚ),
    httpLoop o b fuel attempt (some e) sleeps ≠ HttpResult.assertFail s := by
  intro fuel
  induction fuel with
  | zero => intro attempt e sleeps s; simp [httpLoop]
  | succ g ih =>
    intro attempt e sleeps s
    cases ho : o (attempt + 1) with
    | success r => rw [httpLoop_success_step o b g attempt (some e) sleeps r ho]; simp
    | failure ex =>
      cases g with
      | zero => rw [httpLoop_final_failure o b attempt (some e) sleeps ex ho]; simp
      | succ g2 =>
        rw [httpLoop_failure_step o b g2 attempt (some e) sleeps ex ho]
        exact ih (attempt + 1) ex _ s

theorem httpLoop_pos_ne_assertFail (o : Nat → AttemptOutcome) (b : ℚ) :
    ∀ (fuel : Nat), fuel ≠ 0 →
    ∀ (attempt : Nat) (last : Option Nat) (sleeps s : List ℚ),
    httpLoop o b fuel attempt last sleeps ≠ HttpResult.assertFail s := by
  intro fuel hf attempt last sleeps s
  match fuel, hf with
  | g + 1, _ =>
    cases ho : o (attempt + 1) with
    | success r => rw [httpLoop_success_step o b g attempt last sleeps r ho]; simp
    | failure ex =>
      cases g with
      | zero => rw [httpLoop_final_failure o b attempt last sleeps ex ho]; simp
      | succ g2 =>
        rw [httpLoop_failure_step o b g2 attempt last sleeps ex ho]
        exact httpLoop_some_ne_assertFail o b _ (attempt + 1) ex _ s

/-- Claim C10: `http_get` requires `max_retries >= 1`. Whenever
`max_retries >= 1` the final `assert last_exc is not None` never fails
(whatever the attempts do), while for every call with `max_retries <= 0` the
retry loop body never runs and the call ends in `AssertionError` — it
neither returns a response nor raises a `RequestException`. -/
theorem http_get_assertion_contract (o : Nat → AttemptOutcome)
    (max_retries : Int) (b : ℚ) :
    (1 ≤ max_retries → ∀ s, http_get o max_retries b ≠ HttpResult.assertFail s) ∧
    (max_retries ≤ 0 → http_get o max_retries b = HttpResult.assertFail []) := by
  constructor
  · intro h s
    have hf : max_retries.toNat ≠ 0 := by omega
    exact httpLoop_pos_ne_assertFail o b _ hf 0 none [] s
  · intro h
    have hf : max_retries.toNat = 0 := by omega
    simp [http_get, hf, httpLoop]

/-- Witness for C10 at `max_retries = 1` and `max_retries = -1`. -/
theorem http_get_assertion_contract_witness :
    (http_get (fun _ => AttemptOutcome.failure 0) 1 0 ≠ HttpResult.assertFail []) ∧
    (http_get (fun _ => AttemptOutcome.failure 0) (-1) 0 = HttpResult.assertFail []) :=
  ⟨(http_get_assertion_contract (fun _ => AttemptOutcome.failure 0) 1 0).1
      (by decide) [],
   (http_get_assertion_contract (fun _ => AttemptOutcome.failure 0) (-1) 0).2
      (by decide)⟩

/-- Claim C2: when all `max_retries` attempts of an `http_get` call fail
(transport error or non-2xx status), the call raises exactly the exception
of the final attempt — it neither returns normally nor substitutes a
different error. `e k` names the exception produced by attempt `k`. -/
theorem http_get_raises_last_error (o : Nat → AttemptOutcome) (e : Nat → Nat)
    (b : ℚ) (max_retries : Int) (h1 : 1 ≤ max_retries)
    (hfail : ∀ k : Nat, 1 ≤ k → (k : Int) ≤ max_retries →
      o k = AttemptOutcome.failure (e k)) :
    http_get o max_retries b =
      HttpResult.raised (e max_retries.toNat)
        (expectedSleeps b (max_retries.toNat - 1)) := by
  obtain ⟨f, hf⟩ : ∃ f, max_retries.toNat = f + 1 :=
    ⟨max_retries.toNat - 1, by omega⟩
  have h0 : ∀ k, 0 < k → k ≤ 0 + f + 1 → o k = AttemptOutcome.failure (e k) := by
    intro k hk1 hk2
    exact hfail k hk1 (by omega)
  simp only [http_get, hf]
  rw [httpLoop_allFail o b e f 0 h0 none []]
  simp [expectedSleeps]

/-- Witness for C2: three failing attempts with `max_retries = 3` raise the
third attempt's exception after the two backoff sleeps. -/
theorem http_get_raises_last_error_witness :
    http_get (fun k => AttemptOutcome.failure (10 * k)) 3 (1 / 2) =
      HttpResult.raised (10 * 3) (expectedSleeps (1 / 2) 2) :=
  http_get_raises_last_error (fun k => AttemptOutcome.failure (10 * k))
    (fun k => 10 * k) (1 / 2) 3 (by decide) (fun k _ _ => rfl)

/-- Claim C3: in an `http_get` run where every attempt fails, the backoff
slept before attempt `n` (for `2 <= n <= max_retries`) is
`backoff_factor * 2 ^ (n - 2)` seconds — the sleep list of the run is
`expectedSleeps`, whose entry `n - 2` is that value; in particular with
`max_retries = 3` (and a positive backoff factor) exactly two sleeps occur,
of strictly increasing duration, before the last error is raised. -/
theorem http_get_backoff_schedule (o : Nat → AttemptOutcome) (e : Nat → Nat)
    (b : ℚ) (max_retries : Int) (h1 : 1 ≤ max_retries)
    (hfail : ∀ k : Nat, 1 ≤ k → (k : Int) ≤ max_retries →
      o k = AttemptOutcome.failure (e k)) :
    http_get o max_retries b =
      HttpResult.raised (e max_retries.toNat)
        (expectedSleeps b (max_retries.toNat - 1)) ∧
    (∀ n : Nat, 2 ≤ n → (n : Int) ≤ max_retries →
      (expectedSleeps b (max_retries.toNat - 1))[n - 2]? =
        some (b * 2 ^ (n - 2))) ∧
    (max_retries = 3 → 0 < b →
      (expectedSleeps b (max_retries.toNat - 1)).length = 2 ∧
      b * 2 ^ 0 < b * 2 ^ 1) := by
  refine ⟨?_, ?_, ?_⟩
  · obtain ⟨f, hf⟩ : ∃ f, max_retries.toNat = f + 1 :=
      ⟨max_retries.toNat - 1, by omega⟩
    have h0 : ∀ k, 0 < k → k ≤ 0 + f + 1 → o k = AttemptOutcome.failure (e k) := by
      intro k hk1 hk2
      exact hfail k hk1 (by omega)
    simp only [http_get, hf]
    rw [httpLoop_allFail o b e f 0 h0 none []]
    simp [expectedSleeps]
  · intro n hn2 hnm
    have hlt : n - 2 < max_retries.toNat - 1 := by omega
    simp [expectedSleeps, List.getElem?_map, List.getElem?_range hlt]
  · intro h3 hb
    subst h3
    constructor
    · simp [expectedSleeps]
    · simp only [pow_zero, pow_one, mul_one]
      nlinarith

/-- Witness for C3 at `max_retries = 3`, `backoff_factor = 1/2` and three
failing attempts: two sleeps, the first `1/2 * 2 ^ 0` and the second larger. -/
theorem http_get_backoff_schedule_witness :
    http_get (fun k => AttemptOutcome.failure k) 3 (1 / 2) =
      HttpResult.raised 3 (expectedSleeps (1 / 2) 2) ∧
    (expectedSleeps (1 / 2 : ℚ) 2)[0]? = some ((1 / 2 : ℚ) * 2 ^ 0) ∧
    (expectedSleeps (1 / 2 : ℚ) 2).length = 2 ∧
    (1 / 2 : ℚ) * 2 ^ 0 < (1 / 2 : ℚ) * 2 ^ 1 := by
  have h := http_get_backoff_schedule (fun k => AttemptOutcome.failure k)
    (fun k => k) (1 / 2) 3 (by decide) (fun k _ _ => rfl)
  exact ⟨h.1, h.2.1 2 (by decide) (by decide),
    (h.2.2 rfl (by norm_num)).1, (h.2.2 rfl (by norm_num)).2⟩

/-! ## Input-config lemmas -/

theorem isList_iff_jlist (v : JVal) : isList v = true ↔ ∃ l, v = JVal.jlist l := by
  cases v <;> simp [isList]

theorem normalize_profiles_nonlist (raw : List (String × JVal))
    (h : isList (pyOr (dictGet raw "profiles") (JVal.jlist [])) = false) :
    normalizeInputConfig raw =
      Except.error "`profiles` must be a list of SoundCloud profile URLs." := by
  cases hp : pyOr (dictGet raw "profiles") (JVal.jlist [])
  case jlist ps => rw [hp] at h; simp [isList] at h
  all_goals simp only [normalizeInputConfig, hp]

theorem normalize_keywords_nonlist (raw : List (String × JVal)) (ps : List JVal)
    (hp : pyOr (dictGet raw "profiles") (JVal.jlist []) = JVal.jlist ps)
    (h : isList (pyOr (dictGet raw "keywords") (JVal.jlist [])) = false) :
    normalizeInputConfig raw =
      Except.error "`keywords` must be a list of search keywords." := by
  cases hk : pyOr (dictGet raw "keywords") (JVal.jlist [])
  case jlist ks => rw [hk] at h; simp [isList] at h
  all_goals simp only [normalizeInputConfig, hp, hk]

/-- Counterexample to claim C1 as stated: `profiles` bound to the non-list
value `0` is malformed input by the claim's wording, yet
`_normalize_input_config` does not raise — the falsy value is silently
coerced to `[]` by `raw.get("profiles") or []` and the configuration is
accepted. -/
theorem normalize_accepts_falsy_nonlist_profiles :
    isList (JVal.jint 0) = false ∧
    normalizeInputConfig [("profiles", JVal.jint 0)] =
      Except.ok { profiles := [], keywords := [], maxItemsPerKeyword := 20 } :=
  ⟨rfl, rfl⟩

/-- Claim C1 (amended): for every input whose `profiles` or `keywords` value
is truthy and not a list, whose `maxItemsPerKeyword` cannot be converted by
`int(...)`, or whose converted max is non-positive, `_normalize_input_config`
raises a validation error, and the run aborts before any network request is
issued (falsy non-list values and `int`-convertible non-integers are instead
silently accepted). -/
theorem normalize_rejects_malformed_before_network (raw : List (String × JVal))
    (h : malformedShape raw = true) :
    ∃ msg, normalizeInputConfig raw = Except.error msg ∧
      mainLoadPhase raw = Except.error msg := by
  have herr : ∃ msg, normalizeInputConfig raw = Except.error msg := by
    by_cases hpl : isList (pyOr (dictGet raw "profiles") (JVal.jlist [])) = true
    · obtain ⟨ps, hp⟩ := (isList_iff_jlist _).mp hpl
      by_cases hkl : isList (pyOr (dictGet raw "keywords") (JVal.jlist [])) = true
      · obtain ⟨ks, hk⟩ := (isList_iff_jlist _).mp hkl
        simp only [malformedShape, hp, hk, isTruthyNonList, isList, Bool.not_true,
          Bool.and_false, Bool.false_or] at h
        cases hm : pyInt ((dictGet raw "maxItemsPerKeyword").getD (JVal.jint 20)) with
        | none =>
          exact ⟨"`maxItemsPerKeyword` must be an integer.",
            by simp only [normalizeInputConfig, hp, hk, hm]⟩
        | some m =>
          rw [hm] at h
          have hm0 : m ≤ 0 := by simpa using h
          exact ⟨"`maxItemsPerKeyword` must be > 0.",
            by simp only [normalizeInputConfig, hp, hk, hm, if_pos hm0]⟩
      · exact ⟨_, normalize_keywords_nonlist raw ps hp (by simpa using hkl)⟩
    · exact ⟨_, normalize_profiles_nonlist raw (by simpa using hpl)⟩
  obtain ⟨msg, hmsg⟩ := herr
  exact ⟨msg, hmsg, by simp only [mainLoadPhase, hmsg]⟩

/-- Witness for the amended C1: a truthy non-list `profiles` value is
rejected before any network request. -/
theorem normalize_rejects_malformed_witness :
    malformedShape [("profiles", JVal.jstr "x")] = true ∧
    ∃ msg, normalizeInputConfig [("profiles", JVal.jstr "x")] = Except.error msg ∧
      mainLoadPhase [("profiles", JVal.jstr "x")] = Except.error msg :=
  ⟨by decide, normalize_rejects_malformed_before_network _ (by decide)⟩

theorem pyOr_jlist_self (ps : List JVal) :
    pyOr (some (JVal.jlist ps)) (JVal.jlist []) = JVal.jlist ps := by
  cases ps <;> simp [pyOr, truthy]

/-- Claim C9: on valid input (list values for `profiles` and `keywords`,
and `maxItemsPerKeyword` either absent or a positive integer),
`_normalize_input_config` accepts and returns the configuration unchanged
except that non-string and blank string entries are silently filtered out of
both lists, and a missing `maxItemsPerKeyword` defaults to `20`. -/
theorem normalize_accepts_valid (raw : List (String × JVal))
    (ps ks : List JVal)
    (hp : dictGet raw "profiles" = some (JVal.jlist ps))
    (hk : dictGet raw "keywords" = some (JVal.jlist ks)) :
    (dictGet raw "maxItemsPerKeyword" = none →
      normalizeInputConfig raw =
        Except.ok ⟨filterStrings ps, filterStrings ks, 20⟩) ∧
    (∀ n : Int, dictGet raw "maxItemsPerKeyword" = some (JVal.jint n) → 0 < n →
      normalizeInputConfig raw =
        Except.ok ⟨filterStrings ps, filterStrings ks, n⟩) := by
  have hp2 : pyOr (dictGet raw "profiles") (JVal.jlist []) = JVal.jlist ps := by
    rw [hp]; exact pyOr_jlist_self ps
  have hk2 : pyOr (dictGet raw "keywords") (JVal.jlist []) = JVal.jlist ks := by
    rw [hk]; exact pyOr_jlist_self ks
  constructor
  · intro hm
    simp only [normalizeInputConfig, hp2, hk2, hm, Option.getD_none, pyInt]
    norm_num
  · intro n hm hn
    simp only [normalizeInputConfig, hp2, hk2, hm, Option.getD_some, pyInt]
    rw [if_neg (by omega)]

/-- Witness for C9: a mixed profiles list keeps only its non-blank strings,
keywords pass through, and the supplied positive max is kept. -/
theorem normalize_accepts_valid_witness :
    normalizeInputConfig
      [("profiles", JVal.jlist
          [JVal.jstr "https://soundcloud.com/a", JVal.jint 3, JVal.jstr " "]),
       ("keywords", JVal.jlist [JVal.jstr "lofi"]),
       ("maxItemsPerKeyword", JVal.jint 5)] =
      Except.ok ⟨["https://soundcloud.com/a"], ["lofi"], 5⟩ := by
  have h := (normalize_accepts_valid
    [("profiles", JVal.jlist
        [JVal.jstr "https://soundcloud.com/a", JVal.jint 3, JVal.jstr " "]),
     ("keywords", JVal.jlist [JVal.jstr "lofi"]),
     ("maxItemsPerKeyword", JVal.jint 5)]
    [JVal.jstr "https://soundcloud.com/a", JVal.jint 3, JVal.jstr " "]
    [JVal.jstr "lofi"] rfl rfl).2 5 rfl (by norm_num)
  rw [show filterStrings
      [JVal.jstr "https://soundcloud.com/a", JVal.jint 3, JVal.jstr " "] =
      ["https://soundcloud.com/a"] from by decide,
    show filterStrings [JVal.jstr "lofi"] = ["lofi"] from by decide] at h
  exact h

/-! ## search_artists lemmas -/

/-- Claim C6: `search_artists` raises `ValueError` on every keyword that is
empty or whitespace-only, before issuing any HTTP request — the result does
not depend on the HTTP layer at all and the request trace is empty. -/
theorem search_artists_blank_keyword {ε υ ρ : Type}
    (httpGet : String → Except ε String) (findUserList : String → List υ)
    (normalizeArtist : υ → Option ρ) (extractProfileLinks : String → List String)
    (fetchProfile : String → Except ε (Option ρ)) (quote : String → String)
    (base_url keyword : String) (maxItems : Int)
    (h : pyStrip keyword = "") :
    search_artists httpGet findUserList normalizeArtist extractProfileLinks
      fetchProfile quote base_url keyword maxItems =
      (Except.error SearchErr.valueError, []) := by
  simp [search_artists, h]

/-- Witness for C6: the call corresponding to `search_artists("", 10)` fails
with the validation error and an empty request trace. -/
theorem search_artists_blank_keyword_witness :
    search_artists (fun _ => Except.error ()) (fun _ => ([] : List Unit))
      (fun _ => (none : Option Unit)) (fun _ => []) (fun _ => Except.error ())
      (fun s => s) "https://soundcloud.com" "" 10 =
      (Except.error SearchErr.valueError, []) :=
  search_artists_blank_keyword (fun _ => Except.error ())
    (fun _ => ([] : List Unit)) (fun _ => (none : Option Unit)) (fun _ => [])
    (fun _ => Except.error ()) (fun s => s) "https://soundcloud.com" "" 10 rfl

theorem collectHydration_nonpos {υ ρ : Type} (normalizeArtist : υ → Option ρ)
    (maxItems : Int) (h : maxItems ≤ 0) (entries : List υ) :
    collectHydration normalizeArtist maxItems entries ([] : List ρ) = [] := by
  cases entries with
  | nil => rfl
  | cons u rest =>
    simp only [collectHydration]
    rw [if_pos (by simp; omega)]

theorem pySliceTo_length_le {α : Type} (l : List α) (n : Int) (h : 0 ≤ n) :
    ((pySliceTo l n).length : Int) ≤ n := by
  simp only [pySliceTo, if_pos h, List.length_take]
  have hmin := Nat.min_le_left n.toNat l.length
  omega

/-- Counterexample to claim C7 as stated: with `max_items = -1` (the claim
quantifies over every `max_items`) `search_artists` returns normally with the
empty list, which does not have "at most `-1`" records. -/
theorem search_artists_negative_max_counterexample :
    (search_artists (fun _ => (Except.ok "" : Except Unit String))
      (fun _ => ([] : List Unit))
      (fun _ => (none : Option Unit)) (fun _ => [])
      (fun _ => (Except.ok none : Except Unit (Option Unit)))
      (fun s => s) "b" "a" (-1)).1 = Except.ok [] ∧
    ¬ ((([] : List Unit).length : Int) ≤ -1) := by
  constructor
  · rfl
  · decide

/-- Claim C7 (amended): whenever `search_artists` returns normally it
returns at most `max(max_items, 0)` records — at most `max_items` whenever
`max_items >= 0`, and the empty list for negative `max_items`. -/
theorem search_artists_result_bounded {ε υ ρ : Type}
    (httpGet : String → Except ε String) (findUserList : String → List υ)
    (normalizeArtist : υ → Option ρ) (extractProfileLinks : String → List String)
    (fetchProfile : String → Except ε (Option ρ)) (quote : String → String)
    (base_url keyword : String) (maxItems : Int) (res : List ρ)
    (tr : List String)
    (h : search_artists httpGet findUserList normalizeArtist extractProfileLinks
      fetchProfile quote base_url keyword maxItems = (Except.ok res, tr)) :
    (res.length : Int) ≤ max maxItems 0 ∧ (maxItems < 0 → res = []) := by
  by_cases hq : pyStrip keyword = ""
  · simp [search_artists, hq, Prod.mk.injEq] at h
  · simp only [search_artists, if_neg hq] at h
    cases hhttp : httpGet (base_url ++ "/search/people?q=" ++ quote (pyStrip keyword)) with
    | error e => simp only [hhttp] at h; simp at h
    | ok html =>
      simp only [hhttp] at h
      by_cases hfull :
          ((collectHydration normalizeArtist maxItems (findUserList html)
            []).length : Int) ≥ maxItems
      · rw [if_pos hfull] at h
        simp only [Prod.mk.injEq, Except.ok.injEq] at h
        obtain ⟨hres, htr⟩ := h
        subst hres
        by_cases hn : 0 ≤ maxItems
        · constructor
          · have := pySliceTo_length_le
              (collectHydration normalizeArtist maxItems (findUserList html) [])
              maxItems hn
            omega
          · intro hneg; omega
        · have hempty := collectHydration_nonpos normalizeArtist maxItems
            (by omega) (findUserList html)
          rw [hempty]
          constructor
          · simp [pySliceTo]
          · intro _; simp [pySliceTo]
      · rw [if_neg hfull] at h
        simp only [Prod.mk.injEq, Except.ok.injEq] at h
        obtain ⟨hres, htr⟩ := h
        subst hres
        have hn : 0 ≤ maxItems := by
          by_contra hneg
          have hempty := collectHydration_nonpos normalizeArtist maxItems
            (by omega) (findUserList html)
          rw [hempty] at hfull
          simp at hfull
          omega
        constructor
        · have := pySliceTo_length_le
            (collectFallback fetchProfile maxItems (extractProfileLinks html)
              (collectHydration normalizeArtist maxItems (findUserList html) [])
              [base_url ++ "/search/people?q=" ++ quote (pyStrip keyword)]).1
            maxItems hn
          omega
        · intro hneg; omega

/-- Witness for the amended C7 at `max_items = 5` with an empty search page:
the returned list has at most `max(5, 0)` records. -/
theorem search_artists_result_bounded_witness :
    ((([] : List Unit).length : Int) ≤ max (5 : Int) 0) ∧
    ((5 : Int) < 0 → ([] : List Unit) = []) :=
  search_artists_result_bounded (fun _ => (Except.ok "" : Except Unit String))
    (fun _ => ([] : List Unit))
    (fun _ => (none : Option Unit)) (fun _ => [])
    (fun _ => (Except.ok none : Except Unit (Option Unit)))
    (fun s => s) "b" "a" 5 [] ["b/search/people?q=a"] rfl

/-- Claim C8: hydration extraction never raises and yields the empty
sequence whenever neither the primary nor the loose pattern matches, and
whenever the matched text is malformed JSON (the parser returns `none`);
being a total function into lists, the model cannot raise by construction. -/
theorem extractHydrationBlocks_empty_on_no_match {β : Type}
    (primaryMatch looseMatch : String → Option String)
    (parseJsonArray : String → Option (List β)) (html : String) :
    (primaryMatch html = none → looseMatch html = none →
      extractHydrationBlocks primaryMatch looseMatch parseJsonArray html = []) ∧
    (∀ txt, primaryMatch html = some txt → parseJsonArray txt = none →
      extractHydrationBlocks primaryMatch looseMatch parseJsonArray html = []) ∧
    (∀ txt, primaryMatch html = none → looseMatch html = some txt →
      parseJsonArray txt = none →
      extractHydrationBlocks primaryMatch looseMatch parseJsonArray html = []) := by
  refine ⟨?_, ?_, ?_⟩ <;> intros <;> simp_all [extractHydrationBlocks]

/-- Witness for C8: no pattern matches, so the result is empty. -/
theorem extractHydrationBlocks_empty_witness :
    extractHydrationBlocks (fun _ => none) (fun _ => none)
      (fun _ => (none : Option (List Unit))) "<html></html>" = [] :=
  (extractHydrationBlocks_empty_on_no_match (fun _ => none) (fun _ => none)
    (fun _ => (none : Option (List Unit))) "<html></html>").1 rfl rfl
